import Mathlib

/-!
# Verification of the Lamport distributed-mutex node (`src/node.py`)

A shallow embedding of the per-node protocol engine of `LamportNode`
(`src/node.py`).  Machine-level conventions of the Python source are kept:

* Node identifiers are Python strings (`str(node_id)`); Python compares
  strings lexicographically by code point, which `nodeIdLtB` reproduces on
  `String.data`.
* A request record is the Python tuple `(int(ts), str(node_id))`; Python's
  tuple comparison (primary key first, then tie-break) is `recordLtB`.
* `list.sort()` is modelled by insertion sort under the reflexive closure
  `recLe` of that order: both produce the unique sorted permutation, since
  records comparing equal under the order are identical tuples.
* Python `set`s (`replies_received`, `deferred`) are modelled as
  duplicate-free lists with membership-guarded insertion (`setInsert`).
* Transport sends sit inside `try/except` blocks in the source; a send is
  modelled by `trySend`, parameterised by a success oracle `ok`, and a
  failed send (peer unknown, i.e. `KeyError` on `self.peers[...]`, or a
  transport error) produces no message and no state change.
* `int(None)` raises `TypeError`; operations that can hit it return an
  explicit flag (or `Option`) distinguishing normal return from the raise.

The clock lock, queue lock, etc. serialise each handler; handlers are
modelled as atomic state transformers.
-/

namespace LamportMutex

/-! ## The total order on request records (timestamp, then NodeId) -/

/-- Python string comparison, on the underlying character lists: the first
differing character decides, a strict prefix is smaller. -/
def charListLtB : List Char → List Char → Bool
  | _, [] => false
  | [], _ :: _ => true
  | a :: as, b :: bs =>
    if a.toNat < b.toNat then true
    else if b.toNat < a.toNat then false
    else charListLtB as bs

/-- Python `<` on node-id strings. -/
def nodeIdLtB (a b : String) : Bool := charListLtB a.data b.data

/-- A pending-request record: the Python tuple `(int(ts), str(node_id))`. -/
abbrev RequestRecord := Nat × String

/-- Python tuple comparison on request records: timestamp first, node id as
tie-break. -/
def recordLtB (a b : RequestRecord) : Bool :=
  if a.1 < b.1 then true
  else if b.1 < a.1 then false
  else nodeIdLtB a.2 b.2

/-- The (non-strict) sort order used by `request_queue.sort()`. -/
def recLe (a b : RequestRecord) : Prop := recordLtB b a = false

instance : DecidableRel recLe := fun a b => instDecidableEqBool (recordLtB b a) false

theorem charListLtB_irrefl (l : List Char) : charListLtB l l = false := by
  induction l with
  | nil => rfl
  | cons a as ih => simp [charListLtB, ih]

theorem charListLtB_cons_iff (x y : Char) (xs ys : List Char) :
    charListLtB (x :: xs) (y :: ys) = true ↔
      x.toNat < y.toNat ∨ (x.toNat = y.toNat ∧ charListLtB xs ys = true) := by
  by_cases h1 : x.toNat < y.toNat
  · simp [charListLtB, h1]
  · by_cases h2 : y.toNat < x.toNat
    · simp [charListLtB, h1, h2, Nat.lt_asymm h2]
      omega
    · have hxy : x.toNat = y.toNat := Nat.le_antisymm (Nat.not_lt.mp h2) (Nat.not_lt.mp h1)
      simp [charListLtB, h1, h2, hxy]

theorem charListLtB_eq_of_not_lt :
    ∀ a b : List Char, charListLtB a b = false → charListLtB b a = false → a = b := by
  intro a
  induction a with
  | nil =>
    intro b hab _
    cases b with
    | nil => rfl
    | cons y ys => simp [charListLtB] at hab
  | cons x xs ih =>
    intro b hab hba
    cases b with
    | nil => simp [charListLtB] at hba
    | cons y ys =>
      by_cases h1 : x.toNat < y.toNat
      · simp [charListLtB, h1] at hab
      · by_cases h2 : y.toNat < x.toNat
        · simp [charListLtB, h2] at hba
        · have hxy : x = y :=
            Char.eq_of_val_eq (UInt32.ext (Nat.le_antisymm (Nat.not_lt.mp h2) (Nat.not_lt.mp h1)))
          subst hxy
          simp only [charListLtB, if_neg h1, if_neg h2] at hab hba
          exact congrArg (x :: ·) (ih ys hab hba)

theorem charListLtB_trans :
    ∀ a b c : List Char, charListLtB a b = true → charListLtB b c = true →
      charListLtB a c = true := by
  intro a
  induction a with
  | nil =>
    intro b c hab hbc
    cases b with
    | nil => simp [charListLtB] at hab
    | cons y ys =>
      cases c with
      | nil => simp [charListLtB] at hbc
      | cons z zs => simp [charListLtB]
  | cons x xs ih =>
    intro b c hab hbc
    cases b with
    | nil => simp [charListLtB] at hab
    | cons y ys =>
      cases c with
      | nil => simp [charListLtB] at hbc
      | cons z zs =>
        rw [charListLtB_cons_iff] at hab hbc ⊢
        rcases hab with h1 | ⟨e1, r1⟩
        · rcases hbc with h2 | ⟨e2, r2⟩
          · exact Or.inl (Nat.lt_trans h1 h2)
          · exact Or.inl (e2 ▸ h1)
        · rcases hbc with h2 | ⟨e2, r2⟩
          · exact Or.inl (e1 ▸ h2)
          · exact Or.inr ⟨e1.trans e2, ih ys zs r1 r2⟩

theorem nodeIdLtB_eq_of_not_lt {a b : String} (hab : nodeIdLtB a b = false)
    (hba : nodeIdLtB b a = false) : a = b := by
  cases a with
  | mk da =>
    cases b with
    | mk db =>
      have : da = db := charListLtB_eq_of_not_lt da db hab hba
      simp [this]

theorem recordLtB_irrefl (a : RequestRecord) : recordLtB a a = false := by
  simp [recordLtB, nodeIdLtB, charListLtB_irrefl]

theorem recordLtB_iff (a b : RequestRecord) :
    recordLtB a b = true ↔ a.1 < b.1 ∨ (a.1 = b.1 ∧ nodeIdLtB a.2 b.2 = true) := by
  by_cases h1 : a.1 < b.1
  · simp [recordLtB, h1]
  · by_cases h2 : b.1 < a.1
    · simp [recordLtB, h1, h2]
      omega
    · have e : a.1 = b.1 := Nat.le_antisymm (Nat.not_lt.mp h2) (Nat.not_lt.mp h1)
      simp [recordLtB, h1, h2, e]

theorem recordLtB_eq_of_not_lt {a b : RequestRecord} (hab : recordLtB a b = false)
    (hba : recordLtB b a = false) : a = b := by
  by_cases h1 : a.1 < b.1
  · simp [recordLtB, h1] at hab
  · by_cases h2 : b.1 < a.1
    · simp [recordLtB, h2] at hba
    · have e : a.1 = b.1 := Nat.le_antisymm (Nat.not_lt.mp h2) (Nat.not_lt.mp h1)
      simp only [recordLtB, if_neg h1, if_neg h2, e, Nat.lt_irrefl, if_neg] at hab hba
      have e2 : a.2 = b.2 := by
        apply nodeIdLtB_eq_of_not_lt
        · simpa [if_neg (e ▸ Nat.lt_irrefl b.1)] using hab
        · simpa [if_neg (e ▸ Nat.lt_irrefl b.1)] using hba
      exact Prod.ext e e2

theorem recordLtB_trans {a b c : RequestRecord} (hab : recordLtB a b = true)
    (hbc : recordLtB b c = true) : recordLtB a c = true := by
  rw [recordLtB_iff] at hab hbc ⊢
  rcases hab with h1 | ⟨e1, r1⟩
  · rcases hbc with h2 | ⟨e2, r2⟩
    · exact Or.inl (Nat.lt_trans h1 h2)
    · exact Or.inl (e2 ▸ h1)
  · rcases hbc with h2 | ⟨e2, r2⟩
    · exact Or.inl (e1 ▸ h2)
    · exact Or.inr ⟨e1.trans e2, charListLtB_trans _ _ _ r1 r2⟩

instance : IsRefl RequestRecord recLe := ⟨fun a => recordLtB_irrefl a⟩

instance : IsTrans RequestRecord recLe :=
  ⟨by
    intro a b c hab hbc
    by_contra hac
    have hca : recordLtB c a = true := by
      cases h : recordLtB c a with
      | true => rfl
      | false => exact absurd h hac
    by_cases hbc' : recordLtB b c = true
    · have : recordLtB b a = true := recordLtB_trans hbc' hca
      rw [hab] at this
      exact Bool.false_ne_true this
    · have hbcf : recordLtB b c = false := by
        cases h : recordLtB b c with
        | true => exact absurd h hbc'
        | false => rfl
      have : b = c := recordLtB_eq_of_not_lt hbcf hbc
      subst this
      rw [hab] at hca
      exact Bool.false_ne_true hca⟩

instance : IsAntisymm RequestRecord recLe :=
  ⟨fun _ _ hab hba => recordLtB_eq_of_not_lt hba hab⟩

instance : IsTotal RequestRecord recLe :=
  ⟨by
    intro a b
    by_cases h : recordLtB b a = true
    · right
      show recordLtB a b = false
      cases hab : recordLtB a b with
      | false => rfl
      | true =>
        have := recordLtB_trans hab h
        rw [recordLtB_irrefl] at this
        exact absurd this Bool.false_ne_true
    · left
      show recordLtB b a = false
      cases hba : recordLtB b a with
      | false => rfl
      | true => exact absurd hba h⟩

/-! ## Data model: messages and per-node state -/

/-- An outbound protocol message, tagged with its addressee. -/
inductive Msg where
  | request (ts : Nat) (sender target : String)
  | reply (ts : Nat) (sender target : String)
  | release (ts : Nat) (sender target : String)
deriving DecidableEq

/-- The mutable per-node state of `LamportNode.__init__`.  `peers` is the
list of peer ids (the keys of the peer-url dict, own id filtered out);
`own_request_ts` is `None` until the first request cycle. -/
structure LamportNode where
  node_id : String
  peers : List String
  clock : Nat
  request_queue : List RequestRecord
  requesting : Bool
  own_request_ts : Option Nat
  replies_received : List String
  deferred : List String
deriving DecidableEq

/-- Python `set.add`: insert unless already present (models `self.deferred.add`
and `self.replies_received.add`). -/
def setInsert (x : String) (s : List String) : List String :=
  if s.contains x then s else s ++ [x]

/-- `LamportNode.__init__`: every structure empty, clock 0, own id removed
from the peer map. -/
def initNode (node_id : String) (config : List String) : LamportNode :=
  { node_id := node_id
    peers := config.filter (fun k => k != node_id)
    clock := 0
    request_queue := []
    requesting := false
    own_request_ts := none
    replies_received := []
    deferred := [] }

/-- `request_queue.sort()`: the queue sorted by the tuple order.  Insertion
sort returns the same list as CPython's stable sort: records comparing equal
under `recLe` are equal, so the sorted permutation is unique. -/
def sortQueue (q : List RequestRecord) : List RequestRecord := q.insertionSort recLe

/-- One guarded outbound send.  In the source every send sits in a
`try/except` block: a `KeyError` from `self.peers[target]` (unknown peer) or
a transport error is caught and logged and produces no message.  `ok` is the
transport-success oracle. -/
def trySend (peers : List String) (ok : String → Bool) (target : String) (m : Msg) :
    Option Msg :=
  if peers.contains target && ok target then some m else none

/-! ## Clock operations (`inc_clock`, `update_clock`) -/

/-- `inc_clock`: `self.clock += 1; return self.clock`. -/
def LamportNode.inc_clock (n : LamportNode) : LamportNode × Nat :=
  let c := n.clock + 1
  ({ n with clock := c }, c)

/-- `update_clock`: `self.clock = max(self.clock, int(remote_ts)) + 1;
return self.clock`. -/
def LamportNode.update_clock (n : LamportNode) (remote_ts : Nat) : LamportNode × Nat :=
  let c := max n.clock remote_ts + 1
  ({ n with clock := c }, c)

/-! ## RPC handlers -/

/-- `receive_request(ts, from_id)`.  Returns the post-state, the messages
that actually left the node, and `true` for a normal return (`false` models
the `TypeError` raised by `int(self.own_request_ts)` when the node is
`requesting` but `own_request_ts` is `None`; the clock update and the queue
insertion have already happened at that point). -/
def LamportNode.receive_request (n : LamportNode) (ts : Nat) (from_id : String) (ok : String → Bool) :
    LamportNode × List Msg × Bool :=
  let n1 := (n.update_clock ts).1
  let n2 := { n1 with request_queue := sortQueue (n1.request_queue ++ [(ts, from_id)]) }
  let do_reply : Option Bool :=
    if !n2.requesting then some true
    else
      match n2.own_request_ts with
      | none => none
      | some ots => if recordLtB (ts, from_id) (ots, n2.node_id) then some true else some false
  match do_reply with
  | none => (n2, ([], false))
  | some true =>
      (n2, ((trySend n2.peers ok from_id (Msg.reply n2.clock n2.node_id from_id)).toList, true))
  | some false => ({ n2 with deferred := setInsert from_id n2.deferred }, ([], true))

/-- `receive_reply(ts, from_id)`: observe the clock, record the sender in
the reply tracker. -/
def LamportNode.receive_reply (n : LamportNode) (ts : Nat) (from_id : String) : LamportNode :=
  let n1 := (n.update_clock ts).1
  { n1 with replies_received := setInsert from_id n1.replies_received }

/-- `receive_release(ts, from_id)`: observe the clock, drop every queue
record whose id is `from_id`. -/
def LamportNode.receive_release (n : LamportNode) (ts : Nat) (from_id : String) : LamportNode :=
  let n1 := (n.update_clock ts).1
  { n1 with request_queue := n1.request_queue.filter (fun x => x.2 != from_id) }

/-! ## Core logic -/

/-- `send_request_to_all`: tick, record the own request timestamp, insert
the own record, broadcast `REQUEST` to every peer (each send in its own
`try/except`, so one failure does not stop the loop). -/
def LamportNode.send_request_to_all (n : LamportNode) (ok : String → Bool) : LamportNode × List Msg :=
  let p := n.inc_clock
  let ts := p.2
  let n1 := { p.1 with own_request_ts := some ts }
  let n2 := { n1 with request_queue := sortQueue (n1.request_queue ++ [(ts, n1.node_id)]) }
  let msgs := n2.peers.filterMap fun pid =>
    if ok pid then some (Msg.request ts n2.node_id pid) else none
  (n2, msgs)

/-- `send_release_to_all`: tick, drop the own queue record, broadcast
`RELEASE` to every peer, then flush the deferred set: snapshot it, clear it,
and send each snapshotted id a `REPLY` carrying the current clock value. -/
def LamportNode.send_release_to_all (n : LamportNode) (ok : String → Bool) : LamportNode × List Msg :=
  let p := n.inc_clock
  let ts := p.2
  let n1 := p.1
  let n2 := { n1 with request_queue := n1.request_queue.filter (fun x => x.2 != n1.node_id) }
  let relMsgs := n2.peers.filterMap fun pid =>
    if ok pid then some (Msg.release ts n2.node_id pid) else none
  let deferredSnapshot := n2.deferred
  let n3 := { n2 with deferred := [] }
  let repMsgs := deferredSnapshot.filterMap fun pid =>
    trySend n3.peers ok pid (Msg.reply n3.clock n3.node_id pid)
  (n3, relMsgs ++ repMsgs)

/-- `can_enter_cs`.  `none` models the `TypeError` raised by
`int(self.own_request_ts)` when the queue is non-empty but
`own_request_ts` is `None`; otherwise `some` of the truthiness of the
returned value `self.requesting and all_replied and smallest` (with an
empty queue, `smallest` short-circuits to the falsy `[]`). -/
def LamportNode.can_enter_cs (n : LamportNode) : Option Bool :=
  let all_replied : Bool := n.replies_received.length == n.peers.length
  match n.request_queue, n.own_request_ts with
  | [], _ => some (n.requesting && all_replied && false)
  | _ :: _, none => none
  | q0 :: _, some ots => some (n.requesting && all_replied && (q0 == (ots, n.node_id)))

/-- The Idle → Requesting phase of `request_cs_and_wait`, up to and
including the `REQUEST` broadcast: reset the reply tracker, raise the
`requesting` flag, call `send_request_to_all`. -/
def LamportNode.request_cs_start (n : LamportNode) (ok : String → Bool) : LamportNode × List Msg :=
  send_request_to_all { n with replies_received := [], requesting := true } ok

/-- The InCriticalSection → Idle phase of `request_cs_and_wait`, after
`critical_section()` returns: drop the `requesting` flag, reset the reply
tracker, call `send_release_to_all`. -/
def LamportNode.request_cs_finish (n : LamportNode) (ok : String → Bool) : LamportNode × List Msg :=
  send_release_to_all { n with requesting := false, replies_received := [] } ok

/-- The all-sends-succeed transport oracle. -/
def okAll : String → Bool := fun _ => true

/-! ## Helper lemmas about the operations -/

/-- Unfolding lemma for `receive_request`, with all four exit branches made
explicit. -/
theorem receive_request_spec (n : LamportNode) (ts : Nat) (from_id : String)
    (ok : String → Bool) :
    n.receive_request ts from_id ok =
      if n.requesting then
        match n.own_request_ts with
        | none =>
            ({ n with clock := max n.clock ts + 1,
                      request_queue := sortQueue (n.request_queue ++ [(ts, from_id)]) },
             [], false)
        | some ots =>
            if recordLtB (ts, from_id) (ots, n.node_id) then
              ({ n with clock := max n.clock ts + 1,
                        request_queue := sortQueue (n.request_queue ++ [(ts, from_id)]) },
               (trySend n.peers ok from_id
                  (Msg.reply (max n.clock ts + 1) n.node_id from_id)).toList, true)
            else
              ({ n with clock := max n.clock ts + 1,
                        request_queue := sortQueue (n.request_queue ++ [(ts, from_id)]),
                        deferred := setInsert from_id n.deferred }, [], true)
      else
        ({ n with clock := max n.clock ts + 1,
                  request_queue := sortQueue (n.request_queue ++ [(ts, from_id)]) },
         (trySend n.peers ok from_id (Msg.reply (max n.clock ts + 1) n.node_id from_id)).toList,
         true) := by
  obtain ⟨nid, npeers, nclock, nqueue, nreq, nots, nreplies, ndef⟩ := n
  cases nreq with
  | false => rfl
  | true =>
    cases nots with
    | none => rfl
    | some o =>
      dsimp only [LamportNode.receive_request, LamportNode.update_clock]
      by_cases hlt : recordLtB (ts, from_id) (o, nid) = true
      · rw [if_pos hlt, if_pos hlt]
        rfl
      · rw [if_neg hlt, if_neg hlt]
        rfl

theorem receive_request_queue (n : LamportNode) (ts : Nat) (from_id : String)
    (ok : String → Bool) :
    (n.receive_request ts from_id ok).1.request_queue =
      sortQueue (n.request_queue ++ [(ts, from_id)]) := by
  rw [receive_request_spec]
  cases hreq : n.requesting with
  | false => rfl
  | true =>
    cases hots : n.own_request_ts with
    | none => rfl
    | some o =>
      dsimp only
      by_cases hlt : recordLtB (ts, from_id) (o, n.node_id) = true
      · rw [if_pos hlt]
        rfl
      · rw [if_neg hlt]
        rfl

theorem send_request_to_all_queue (n : LamportNode) (ok : String → Bool) :
    (n.send_request_to_all ok).1.request_queue =
      sortQueue (n.request_queue ++ [(n.clock + 1, n.node_id)]) := rfl

theorem setInsert_idem (x : String) (s : List String) :
    setInsert x (setInsert x s) = setInsert x s := by
  unfold setInsert
  by_cases h : s.contains x
  · rw [if_pos h, if_pos h]
  · rw [if_neg h]
    have h2 : (s ++ [x]).contains x = true := by simp
    rw [if_pos h2]

/-! ## Claim C4 -/

/-- C4: for every prior clock value and remote timestamp, `update_clock`
sets the clock to `max(clock, remote) + 1` and returns that value, which is
strictly greater than both; `inc_clock` sets the clock to `clock + 1` and
returns it; hence every clock operation strictly increases the clock. -/
theorem claim_C4_clock_monotonicity (n : LamportNode) (r : Nat) :
    (n.update_clock r).2 = max n.clock r + 1 ∧
    (n.update_clock r).1.clock = max n.clock r + 1 ∧
    n.clock < (n.update_clock r).1.clock ∧
    r < (n.update_clock r).1.clock ∧
    n.inc_clock.2 = n.clock + 1 ∧
    n.inc_clock.1.clock = n.clock + 1 ∧
    n.clock < n.inc_clock.1.clock := by
  refine ⟨rfl, rfl, ?_, ?_, rfl, rfl, ?_⟩ <;>
    simp [LamportNode.update_clock, LamportNode.inc_clock] <;> omega

/-! ## Claim C5 -/

/-- A node about to start a request cycle while its Deferred-Reply Set is
still non-empty. -/
def exC5 : LamportNode := { initNode "1" ["1", "2"] with deferred := ["3"] }

/-- C5 counterexample: the cycle-start phase of `request_cs_and_wait` does
not reset the Deferred-Reply Set: starting from a state whose deferred set
holds `"3"`, the deferred set still holds `"3"` after the phase (including
the `REQUEST` broadcast) has completed. -/
theorem claim_C5_counterexample :
    (exC5.request_cs_start okAll).1.deferred = ["3"] ∧
    (exC5.request_cs_start okAll).1.deferred ≠ [] := by
  constructor
  · rfl
  · decide

/-- C5 amended: at the start of every request cycle only the Reply Tracker
is reset to empty before the `REQUEST` broadcast; the Deferred-Reply Set is
left exactly as it was (it is cleared only by `send_release_to_all` at the
end of the previous cycle). -/
theorem claim_C5_amended (n : LamportNode) (ok : String → Bool) :
    (n.request_cs_start ok).1.replies_received = [] ∧
    (n.request_cs_start ok).1.deferred = n.deferred ∧
    (n.request_cs_start ok).1.requesting = true := by
  exact ⟨rfl, rfl, rfl⟩

/-! ## Claim C3 -/

/-- Two `REQUEST`s from node `"2"` processed by a fresh node `"1"`. -/
def exC3 : LamportNode :=
  ((((initNode "1" ["1", "2"]).receive_request 1 "2" okAll).1).receive_request 5 "2" okAll).1

/-- C3 counterexample: after receiving `REQUEST(1, "2")` and then
`REQUEST(5, "2")`, the Pending-Request Ledger of node `"1"` holds two
records for NodeId `"2"`: insertion appends, it does not replace.  The
state is reachable (it is produced by two `receive_request` calls on the
freshly constructed node). -/
theorem claim_C3_counterexample :
    exC3.request_queue = [(1, "2"), (5, "2")] ∧
    ¬ exC3.request_queue.Pairwise (fun a b => a.2 ≠ b.2) := by
  constructor
  · rfl
  · decide

/-- C3 amended: inserting a record (in `receive_request` and in
`send_request_to_all`) appends it to the Ledger and re-sorts; it does not
replace an existing record for that NodeId, so the resulting queue is a
permutation of the old queue with the new record added, and several records
for the same NodeId can coexist. -/
theorem claim_C3_amended (n : LamportNode) (ts : Nat) (from_id : String) (ok : String → Bool) :
    ((n.receive_request ts from_id ok).1.request_queue).Perm
      ((ts, from_id) :: n.request_queue) ∧
    ((n.send_request_to_all ok).1.request_queue).Perm
      ((n.clock + 1, n.node_id) :: n.request_queue) := by
  constructor
  · rw [receive_request_queue]
    exact (List.perm_insertionSort recLe _).trans (List.perm_append_singleton _ _)
  · rw [send_request_to_all_queue]
    exact (List.perm_insertionSort recLe _).trans (List.perm_append_singleton _ _)

/-! ## Claim C6 -/

/-- C6: for every node state, applying `receive_reply` or `receive_release`
twice yields the same `request_queue` and `replies_received` contents as
applying it once; in particular a `RELEASE` with no matching Ledger record
leaves the Ledger unchanged. -/
theorem claim_C6_idempotence (n : LamportNode) (ts : Nat) (from_id : String) :
    ((n.receive_reply ts from_id).receive_reply ts from_id).replies_received =
      (n.receive_reply ts from_id).replies_received ∧
    ((n.receive_reply ts from_id).receive_reply ts from_id).request_queue =
      (n.receive_reply ts from_id).request_queue ∧
    ((n.receive_release ts from_id).receive_release ts from_id).request_queue =
      (n.receive_release ts from_id).request_queue ∧
    ((n.receive_release ts from_id).receive_release ts from_id).replies_received =
      (n.receive_release ts from_id).replies_received ∧
    ((∀ r ∈ n.request_queue, r.2 ≠ from_id) →
      (n.receive_release ts from_id).request_queue = n.request_queue) := by
  refine ⟨setInsert_idem _ _, rfl, ?_, rfl, ?_⟩
  · show (n.request_queue.filter (fun x => x.2 != from_id)).filter (fun x => x.2 != from_id)
        = n.request_queue.filter (fun x => x.2 != from_id)
    rw [List.filter_filter]
    simp
  · intro h
    show n.request_queue.filter (fun x => x.2 != from_id) = n.request_queue
    rw [List.filter_eq_self]
    intro a ha
    simpa using h a ha

/-- A node holding only its own record in the Ledger. -/
def exC6 : LamportNode := { initNode "1" ["1", "2"] with request_queue := [(1, "1")] }

theorem claim_C6_witness :
    (exC6.receive_release 3 "2").request_queue = exC6.request_queue :=
  (claim_C6_idempotence exC6 3 "2").2.2.2.2 (by decide)

/-! ## Claim C9 -/

/-- C9: for every outbound send, the post-state with an arbitrary pattern of
send failures equals the post-state with every send succeeding — failures
are caught inside the `try/except` blocks, alter no local state, and the
raised-exception flag of `receive_request` does not depend on them. -/
theorem claim_C9_send_failures (n : LamportNode) (ts : Nat) (from_id : String)
    (ok : String → Bool) :
    (n.receive_request ts from_id ok).1 = (n.receive_request ts from_id okAll).1 ∧
    (n.receive_request ts from_id ok).2.2 = (n.receive_request ts from_id okAll).2.2 ∧
    (n.send_request_to_all ok).1 = (n.send_request_to_all okAll).1 ∧
    (n.send_release_to_all ok).1 = (n.send_release_to_all okAll).1 ∧
    (n.request_cs_start ok).1 = (n.request_cs_start okAll).1 ∧
    (n.request_cs_finish ok).1 = (n.request_cs_finish okAll).1 := by
  refine ⟨?_, ?_, rfl, rfl, rfl, rfl⟩ <;>
  · unfold LamportNode.receive_request
    dsimp only
    split <;> rfl

/-! ## Claim C10 -/

/-- A fresh node that has processed one remote `REQUEST` but has never
requested itself: `requesting = false`, non-empty queue, `own_request_ts`
still `None`. -/
def exC10 : LamportNode := ((initNode "1" ["1", "2"]).receive_request 1 "2" okAll).1

/-- C10 counterexample: with `requesting = False`, a non-empty queue and
`own_request_ts = None` (a reachable state: a fresh node that has received
one remote `REQUEST`), `can_enter_cs` raises `TypeError` from
`int(self.own_request_ts)` instead of returning a falsy value. -/
theorem claim_C10_counterexample :
    exC10.requesting = false ∧ exC10.request_queue ≠ [] ∧ exC10.can_enter_cs = none := by
  refine ⟨rfl, by decide, rfl⟩

/-- C10 amended: `can_enter_cs` returns a falsy value whenever the queue is
empty, and whenever the requesting flag is `False` provided
`own_request_ts` is set; and a truthy result implies the node is requesting
and its own record is in the queue.  (When the queue is non-empty and
`own_request_ts` is `None`, the function raises `TypeError` instead of
returning a falsy value.) -/
theorem claim_C10_amended (n : LamportNode) (ots : Nat) :
    (n.request_queue = [] → n.can_enter_cs = some false) ∧
    (n.requesting = false → n.own_request_ts = some ots → n.can_enter_cs = some false) ∧
    (n.can_enter_cs = some true →
      n.requesting = true ∧ ∃ t, n.own_request_ts = some t ∧ (t, n.node_id) ∈ n.request_queue) := by
  refine ⟨?_, ?_, ?_⟩
  · intro hq
    unfold LamportNode.can_enter_cs
    rw [hq]
    simp
  · intro hreq hots
    unfold LamportNode.can_enter_cs
    cases hq : n.request_queue with
    | nil => simp [hreq]
    | cons q0 rest => rw [hots]; simp [hreq]
  · intro htrue
    unfold LamportNode.can_enter_cs at htrue
    cases hq : n.request_queue with
    | nil => rw [hq] at htrue; simp at htrue
    | cons q0 rest =>
      rw [hq] at htrue
      cases hots : n.own_request_ts with
      | none => rw [hots] at htrue; exact absurd htrue (by simp)
      | some t =>
        rw [hots] at htrue
        simp only [Option.some.injEq, Bool.and_eq_true, beq_iff_eq] at htrue
        exact ⟨htrue.1.1, t, rfl, List.mem_cons.mpr (Or.inl htrue.2.symm)⟩

/-- A fresh idle node: empty queue. -/
def exC10b : LamportNode := initNode "1" ["1", "2"]

/-- An idle node with a remote record in the queue and a leftover own
request timestamp from a completed cycle. -/
def exC10c : LamportNode :=
  { initNode "1" ["1", "2"] with request_queue := [(1, "2")], own_request_ts := some 2 }

theorem claim_C10_witness :
    exC10b.can_enter_cs = some false ∧ exC10c.can_enter_cs = some false :=
  ⟨(claim_C10_amended exC10b 0).1 rfl, (claim_C10_amended exC10c 2).2.1 rfl rfl⟩

/-! ## Claim C2 -/

/-- C2: `receive_request(ts, from_id)` replies immediately when the node is
not requesting; when it is requesting it replies immediately exactly when
`(ts, from_id)` strictly precedes `(ownTs, selfId)` in the
timestamp-then-NodeId order, and otherwise defers: it adds `from_id` to the
Deferred-Reply Set and sends nothing.  The immediate reply carries the
updated clock `max(clock, ts) + 1`. -/
theorem claim_C2_receive_request (n : LamportNode) (ts : Nat) (from_id : String) (ots : Nat)
    (hpeer : from_id ∈ n.peers)
    (hots : n.requesting = true → n.own_request_ts = some ots) :
    (n.requesting = false →
      (n.receive_request ts from_id okAll).2.1 =
        [Msg.reply (max n.clock ts + 1) n.node_id from_id] ∧
      (n.receive_request ts from_id okAll).1.deferred = n.deferred) ∧
    (n.requesting = true →
      if recordLtB (ts, from_id) (ots, n.node_id) = true then
        (n.receive_request ts from_id okAll).2.1 =
          [Msg.reply (max n.clock ts + 1) n.node_id from_id] ∧
        (n.receive_request ts from_id okAll).1.deferred = n.deferred
      else
        (n.receive_request ts from_id okAll).2.1 = [] ∧
        (n.receive_request ts from_id okAll).1.deferred = setInsert from_id n.deferred) := by
  constructor
  · intro hreq
    rw [receive_request_spec, hreq]
    simp [trySend, hpeer, okAll]
  · intro hreq
    rw [receive_request_spec, hreq, hots hreq]
    by_cases hlt : recordLtB (ts, from_id) (ots, n.node_id) = true
    · rw [if_pos hlt]
      simp only [if_pos hlt]
      simp [trySend, hpeer, okAll]
    · rw [if_neg hlt]
      have hlt' : recordLtB (ts, from_id) (ots, n.node_id) = false :=
        Bool.not_eq_true _ ▸ Bool.of_not_eq_true hlt
      simp only [hlt', Bool.false_eq_true, if_neg, if_false]
      simp

/-- A requesting node whose own record is `(1, "1")`. -/
def exC2 : LamportNode :=
  { initNode "1" ["1", "2"] with
      requesting := true
      own_request_ts := some 1
      request_queue := [(1, "1")] }

theorem claim_C2_witness :
    (exC2.receive_request 2 "2" okAll).2.1 = [] ∧
    (exC2.receive_request 2 "2" okAll).1.deferred = setInsert "2" exC2.deferred := by
  have h := (claim_C2_receive_request exC2 2 "2" 1 (by decide) (fun _ => rfl)).2 rfl
  rwa [if_neg (by decide : ¬ recordLtB (2, "2") (1, exC2.node_id) = true)] at h

/-! ## Claim C7 -/

/-- C7: every operation that mutates the Pending-Request Ledger leaves the
queue sorted ascending by the timestamp-then-NodeId order (the two inserts
sort unconditionally, the two removals preserve sortedness), and in a
sorted queue the first element is a minimum. -/
theorem claim_C7_sortedness (n : LamportNode) (ts : Nat) (from_id : String) (ok : String → Bool)
    (hsorted : n.request_queue.Sorted recLe) :
    ((n.receive_request ts from_id ok).1.request_queue).Sorted recLe ∧
    ((n.send_request_to_all ok).1.request_queue).Sorted recLe ∧
    ((n.receive_release ts from_id).request_queue).Sorted recLe ∧
    ((n.send_release_to_all ok).1.request_queue).Sorted recLe ∧
    ∀ q0 rest, n.request_queue = q0 :: rest → ∀ r ∈ n.request_queue, recLe q0 r := by
  refine ⟨?_, ?_, ?_, ?_, ?_⟩
  · rw [receive_request_queue]
    exact List.sorted_insertionSort recLe _
  · rw [send_request_to_all_queue]
    exact List.sorted_insertionSort recLe _
  · show (n.request_queue.filter (fun x => x.2 != from_id)).Sorted recLe
    exact hsorted.filter _
  · show (n.request_queue.filter (fun x => x.2 != n.node_id)).Sorted recLe
    exact hsorted.filter _
  · intro q0 rest hq r hr
    rw [hq] at hsorted hr
    rcases List.mem_cons.mp hr with h | h
    · exact h ▸ recordLtB_irrefl q0
    · exact List.rel_of_sorted_cons hsorted r h

/-- A node holding a sorted two-record Ledger. -/
def exC7 : LamportNode :=
  { initNode "1" ["1", "2"] with request_queue := [(1, "1"), (2, "2")] }

theorem claim_C7_witness :
    ((exC7.receive_request 1 "3" okAll).1.request_queue).Sorted recLe ∧
    ((exC7.send_release_to_all okAll).1.request_queue).Sorted recLe := by
  have h := claim_C7_sortedness exC7 1 "3" okAll (by decide)
  exact ⟨h.1, h.2.2.2.1⟩

/-! ## Claim C8 -/

/-- C8: on completing the critical section the node removes its own Ledger
record, broadcasts `RELEASE` with the freshly ticked timestamp
`clock + 1`, then sends one `REPLY` carrying the current clock value to
every NodeId in the Deferred-Reply Set, and ends the cycle with the
Deferred-Reply Set and Reply Tracker empty and the requesting flag down;
each deferred peer is sent exactly one reply. -/
theorem claim_C8_release (n : LamportNode)
    (hdef : ∀ p ∈ n.deferred, p ∈ n.peers) (hnodup : n.deferred.Nodup) :
    (n.request_cs_finish okAll).1.request_queue =
      n.request_queue.filter (fun r => r.2 != n.node_id) ∧
    (n.request_cs_finish okAll).2 =
      n.peers.map (fun pid => Msg.release (n.clock + 1) n.node_id pid) ++
        n.deferred.map (fun pid => Msg.reply (n.clock + 1) n.node_id pid) ∧
    (n.request_cs_finish okAll).1.clock = n.clock + 1 ∧
    (n.request_cs_finish okAll).1.deferred = [] ∧
    (n.request_cs_finish okAll).1.replies_received = [] ∧
    (n.request_cs_finish okAll).1.requesting = false ∧
    ∀ p ∈ n.deferred,
      ((n.request_cs_finish okAll).2.count (Msg.reply (n.clock + 1) n.node_id p)) = 1 := by
  have hmsgs : (n.request_cs_finish okAll).2 =
      n.peers.map (fun pid => Msg.release (n.clock + 1) n.node_id pid) ++
        n.deferred.map (fun pid => Msg.reply (n.clock + 1) n.node_id pid) := by
    show (n.peers.filterMap fun pid =>
          if okAll pid then some (Msg.release (n.clock + 1) n.node_id pid) else none) ++
        (n.deferred.filterMap fun pid =>
          trySend n.peers okAll pid (Msg.reply (n.clock + 1) n.node_id pid)) = _
    congr 1
    · rw [show (fun pid => if okAll pid then some (Msg.release (n.clock + 1) n.node_id pid)
            else none) = fun pid => some (Msg.release (n.clock + 1) n.node_id pid) from rfl]
      exact congrFun (List.filterMap_eq_map _) _
    · rw [List.filterMap_congr (g := fun pid => some (Msg.reply (n.clock + 1) n.node_id pid))
        (fun a ha => by simp [trySend, okAll, hdef a ha])]
      exact congrFun (List.filterMap_eq_map _) _
  refine ⟨rfl, hmsgs, rfl, rfl, rfl, rfl, ?_⟩
  intro p hp
  rw [hmsgs, List.count_append]
  have h0 : (n.peers.map fun pid => Msg.release (n.clock + 1) n.node_id pid).count
      (Msg.reply (n.clock + 1) n.node_id p) = 0 := by
    rw [List.count_eq_zero]
    intro hmem
    rcases List.mem_map.mp hmem with ⟨pid, _, heq⟩
    exact Msg.noConfusion heq
  have h1 : (n.deferred.map fun pid => Msg.reply (n.clock + 1) n.node_id pid).count
      (Msg.reply (n.clock + 1) n.node_id p) = 1 := by
    have hinj : Function.Injective (fun pid => Msg.reply (n.clock + 1) n.node_id pid) := by
      intro a b hab
      cases hab
      rfl
    rw [List.count_map_of_injective _ _ hinj]
    exact List.count_eq_one_of_mem hnodup hp
  rw [h0, h1]

/-- A node leaving its critical section with one deferred peer. -/
def exC8 : LamportNode :=
  { initNode "1" ["1", "2"] with
      requesting := true
      own_request_ts := some 1
      request_queue := [(1, "1")]
      replies_received := ["2"]
      deferred := ["2"]
      clock := 4 }

theorem claim_C8_witness :
    (exC8.request_cs_finish okAll).1.request_queue = [] ∧
    (exC8.request_cs_finish okAll).2 =
      [Msg.release 5 "1" "2", Msg.reply 5 "1" "2"] ∧
    (exC8.request_cs_finish okAll).1.deferred = [] := by
  have h := claim_C8_release exC8 (by decide) (by decide)
  refine ⟨?_, ?_, h.2.2.2.1⟩
  · rw [h.1]
    decide
  · rw [h.2.1]
    decide

/-! ## Claim C1 -/

/-- A reachable state refuting C1: node `"1"` (single peer `"2"`) starts a
request cycle and then processes a `REPLY` from the unknown sender `"3"`. -/
def exC1 : LamportNode :=
  (((initNode "1" ["1", "2"]).request_cs_start okAll).1).receive_reply 1 "3"

/-- C1 counterexample: in the reachable state `exC1` the node is
requesting, `can_enter_cs` is truthy, and yet the Reply Tracker does not
contain the peer `"2"`: the code compares tracker **size** with peer
count, so a reply from an unknown sender satisfies it.  The claimed "if
and only if" fails. -/
theorem claim_C1_counterexample :
    exC1.requesting = true ∧
    exC1.can_enter_cs = some true ∧
    "2" ∈ exC1.peers ∧
    "2" ∉ exC1.replies_received := by
  refine ⟨rfl, by decide, by decide, by decide⟩

/-- The cardinality comparison `len(replies) == len(peers)` coincides with
"every peer is in the tracker" exactly when the tracker is duplicate-free
and holds only peer ids. -/
theorem length_eq_iff_all_mem {replies peers : List String}
    (hrep : replies.Nodup) (hpeers : peers.Nodup) (hsub : ∀ x ∈ replies, x ∈ peers) :
    replies.length = peers.length ↔ ∀ p ∈ peers, p ∈ replies := by
  constructor
  · intro hlen p hp
    have hsp : List.Subperm replies peers := hrep.subperm hsub
    have hperm : replies.Perm peers := hsp.perm_of_length_le (le_of_eq hlen.symm)
    exact hperm.mem_iff.mpr hp
  · intro hsup
    have h1 : List.Subperm replies peers := hrep.subperm hsub
    have h2 : List.Subperm peers replies := hpeers.subperm hsup
    exact Nat.le_antisymm h1.length_le h2.length_le

/-- In a sorted queue, being the head is the same as being a member that is
a minimum. -/
theorem sorted_head_eq_iff {q0 : RequestRecord} {rest : List RequestRecord}
    {a : RequestRecord} (hsorted : (q0 :: rest).Sorted recLe) :
    q0 = a ↔ (a ∈ q0 :: rest ∧ ∀ r ∈ q0 :: rest, recLe a r) := by
  constructor
  · rintro rfl
    refine ⟨List.mem_cons_self _ _, fun r hr => ?_⟩
    rcases List.mem_cons.mp hr with h | h
    · exact h ▸ recordLtB_irrefl _
    · exact List.rel_of_sorted_cons hsorted r h
  · rintro ⟨hmem, hmin⟩
    rcases List.mem_cons.mp hmem with h | h
    · exact h.symm
    · have h1 : recLe q0 a := List.rel_of_sorted_cons hsorted a h
      have h2 : recLe a q0 := hmin q0 (List.mem_cons_self _ _)
      exact antisymm h1 h2

/-- C1 amended: `can_enter_cs` compares the tracker **size** with the peer
count (not tracker membership).  In the `Requesting` state, and under the
reachable-state invariants that the tracker is duplicate-free and holds
only peer ids and that the queue is sorted, its truthiness is equivalent
to the claimed joint condition: every peer is in the Reply Tracker and the
node's own record is a minimum of the Ledger.  (Without the
tracker-contains-only-peers invariant the equivalence fails, see the
counterexample.) -/
theorem claim_C1_amended (n : LamportNode) (ots : Nat)
    (hreq : n.requesting = true) (hots : n.own_request_ts = some ots)
    (hpeers : n.peers.Nodup) (hrep : n.replies_received.Nodup)
    (hsub : ∀ x ∈ n.replies_received, x ∈ n.peers)
    (hsorted : n.request_queue.Sorted recLe) :
    n.can_enter_cs = some true ↔
      ((∀ p ∈ n.peers, p ∈ n.replies_received) ∧
       (ots, n.node_id) ∈ n.request_queue ∧
       ∀ r ∈ n.request_queue, recLe (ots, n.node_id) r) := by
  unfold LamportNode.can_enter_cs
  cases hq : n.request_queue with
  | nil =>
    constructor
    · intro h
      simp at h
    · rintro ⟨-, h, -⟩
      simp at h
  | cons q0 rest =>
    rw [hq] at hsorted
    rw [hots]
    simp only [hreq, Bool.true_and, Option.some.injEq, Bool.and_eq_true, beq_iff_eq]
    constructor
    · rintro ⟨hlen, hhead⟩
      have hall := (length_eq_iff_all_mem hrep hpeers hsub).mp hlen
      have hh := (sorted_head_eq_iff hsorted).mp hhead
      exact ⟨hall, hh.1, hh.2⟩
    · rintro ⟨hall, hmem, hmin⟩
      refine ⟨(length_eq_iff_all_mem hrep hpeers hsub).mpr hall, ?_⟩
      exact (sorted_head_eq_iff hsorted).mpr ⟨hmem, hmin⟩

/-- A requesting node whose single peer `"2"` has replied and whose own
record heads the queue. -/
def exC1w : LamportNode :=
  { initNode "1" ["1", "2"] with
      requesting := true
      own_request_ts := some 1
      request_queue := [(1, "1")]
      replies_received := ["2"] }

theorem claim_C1_witness : exC1w.can_enter_cs = some true :=
  (claim_C1_amended exC1w 1 rfl rfl (by decide) (by decide) (by decide) (by decide)).mpr
    ⟨by decide, by decide, by decide⟩

end LamportMutex
